import Mathlib

/-!
Verification development for the sistema-sedint repository: a shallow
embedding, in Lean 4, of the company-deletion batch operation
(`src/lib/crm-services.ts`), the process-history services
(`src/lib/firebase-services.ts`), the history diff rendering
(`ProcessHistory` component), the CNPJ validator (`EmpresaForm`), the
delete-confirmation modal (`DeleteEmpresaModal`) and the Excel export
(`ExcelExportService`), together with theorems settling the spec's claims
about them.

Conventions of the embedding:
* Firestore documents are Lean structures; a collection is a `List` of
  documents; the whole database is a `Store` structure.
* Firestore's `writeBatch`/`commit` is a list of operations applied
  atomically by a fold; an injected `commitOk` flag models a failing
  commit (the vendor API applies either every operation or none).
* Server timestamps are `Nat` parameters (`now`).
* JavaScript runtime values appearing in history snapshots are the
  inductive types `JsPrim` / `JVal`; `undefined` is `Option.none` for
  lookups and the constructor `JVal.undef` where a key can be bound to it.
-/

/-! ## CRM data model (`src/types/crm.ts`, `src/types/firebase.ts`) -/

/-- The nested address object of a company (`Empresa.endereco`). -/
structure Endereco where
  logradouro : String
  numero : String
  complemento : Option String
  bairro : String
  cidade : String
  estado : String
  cep : String
deriving DecidableEq, Repr

/-- A stored company document (`FirebaseEmpresa`), timestamps as `Nat`. -/
structure FirebaseEmpresa where
  id : String
  cnpj : String
  razao_social : String
  nome_fantasia : String
  endereco : Endereco
  telefone : Option String
  email : Option String
  site : Option String
  observacoes : Option String
  created_at : Nat
  updated_at : Nat
  created_by : String
  updated_by : String
deriving DecidableEq, Repr

/-- A stored contact document (`FirebaseContato`). -/
structure FirebaseContato where
  id : String
  empresa_id : String
  nome : String
  cargo : Option String
  telefone : Option String
  celular : Option String
  email : String
  departamento : Option String
  observacoes : Option String
  is_principal : Bool
  created_at : Nat
  updated_at : Nat
  created_by : String
  updated_by : String
deriving DecidableEq, Repr

/-- A stored information-log document (`FirebaseLogInformacao`). -/
structure FirebaseLogInformacao where
  id : String
  empresa_id : String
  contato_id : Option String
  titulo : String
  descricao : String
  relevancia : String
  categoria : String
  data_ocorrencia : Nat
  data_registro : Nat
  created_at : Nat
  updated_at : Nat
  created_by : String
  updated_by : String
deriving DecidableEq, Repr

/-- The `detalhes` sub-object written into an audit record by
`deleteEmpresa` (crm-services.ts lines 162-169). -/
structure AuditDetalhes where
  razao_social : String
  endereco : Endereco
  telefone : Option String
  email : Option String
  site : Option String
  observacoes : Option String
deriving DecidableEq, Repr

/-- The audit record written by `deleteEmpresa` into the `auditoria`
collection (crm-services.ts lines 152-170). -/
structure AuditRecord where
  tipo : String
  empresa_id : String
  empresa_nome : String
  empresa_cnpj : String
  contatos_excluidos : Nat
  logs_excluidos : Nat
  usuario_id : String
  usuario_email : String
  data_exclusao : Nat
  detalhes : AuditDetalhes
deriving DecidableEq, Repr

/-- The Firestore collections touched by the CRM services. -/
structure Store where
  empresas : List FirebaseEmpresa
  contatos : List FirebaseContato
  logs_informacao : List FirebaseLogInformacao
  auditoria : List AuditRecord
deriving DecidableEq, Repr

/-- Document ids are unique inside each collection (a Firestore
invariant: a document reference names at most one document). -/
def Store.WellFormed (s : Store) : Prop :=
  (s.contatos.map FirebaseContato.id).Nodup ∧
  (s.logs_informacao.map FirebaseLogInformacao.id).Nodup

instance (s : Store) : Decidable s.WellFormed := by
  unfold Store.WellFormed; infer_instance

/-! ## `empresaService.deleteEmpresa` (crm-services.ts lines 109-178) -/

/-- One operation queued on the `writeBatch`. -/
inductive BatchOp
  | deleteContato (id : String)
  | deleteLog (id : String)
  | deleteEmpresaDoc (id : String)
  | setAuditoria (rec : AuditRecord)
deriving DecidableEq, Repr

/-- Effect of a single batch operation on the store.  A delete removes
the document the reference names (delete of an absent id is a no-op,
as in Firestore); `set` on a fresh reference appends the document. -/
def applyOp (s : Store) : BatchOp → Store
  | .deleteContato i => { s with contatos := s.contatos.filter (fun c => c.id ≠ i) }
  | .deleteLog i => { s with logs_informacao := s.logs_informacao.filter (fun l => l.id ≠ i) }
  | .deleteEmpresaDoc i => { s with empresas := s.empresas.filter (fun e => e.id ≠ i) }
  | .setAuditoria rec => { s with auditoria := s.auditoria ++ [rec] }

/-- `batch.commit()`: atomic — either every queued operation is applied,
or (injected failure, `ok = false`) none is and the call throws. -/
def commitBatch (ok : Bool) (s : Store) (ops : List BatchOp) : Except String Store :=
  if ok then .ok (ops.foldl applyOp s) else .error "commit failed"

/-- `getDoc(doc(db, 'empresas', id))`. -/
def getDocEmpresa (s : Store) (id : String) : Option FirebaseEmpresa :=
  s.empresas.find? (fun e => e.id = id)

/-- The audit record queued by `batch.set(auditoriaRef, {...})`
(crm-services.ts lines 152-170), as a function of the pre-deletion
company data, the two fetched collection sizes and the actor. -/
def deleteEmpresaAudit (now : Nat) (id userId userEmail : String)
    (empresaData : FirebaseEmpresa) (nContatos nLogs : Nat) : AuditRecord :=
  { tipo := "exclusao_empresa"
    empresa_id := id
    empresa_nome := empresaData.nome_fantasia
    empresa_cnpj := empresaData.cnpj
    contatos_excluidos := nContatos
    logs_excluidos := nLogs
    usuario_id := userId
    usuario_email := userEmail
    data_exclusao := now
    detalhes :=
      { razao_social := empresaData.razao_social
        endereco := empresaData.endereco
        telefone := empresaData.telefone
        email := empresaData.email
        site := empresaData.site
        observacoes := empresaData.observacoes } }

/-- Body of the `try` block of `empresaService.deleteEmpresa`
(crm-services.ts lines 110-173): fetch the company (throwing
`'Empresa não encontrada'` if absent), query related contacts and logs
by `empresa_id`, queue deletes for each plus the company itself, queue
the audit record, and commit the batch. -/
def deleteEmpresaTry (commitOk : Bool) (now : Nat)
    (id userId userEmail : String) (s : Store) : Except String Store :=
  match getDocEmpresa s id with
  | none => .error "Empresa não encontrada"
  | some empresaData =>
    let contatosDocs := s.contatos.filter (fun c => c.empresa_id = id)
    let logsDocs := s.logs_informacao.filter (fun l => l.empresa_id = id)
    let batch : List BatchOp :=
      contatosDocs.map (fun c => BatchOp.deleteContato c.id)
      ++ logsDocs.map (fun l => BatchOp.deleteLog l.id)
      ++ [BatchOp.deleteEmpresaDoc id]
      ++ [BatchOp.setAuditoria
          (deleteEmpresaAudit now id userId userEmail empresaData
            contatosDocs.length logsDocs.length)]
    commitBatch commitOk s batch

/-- `empresaService.deleteEmpresa` with its `catch`: any error raised in
the `try` block (the not-found error included) is logged and re-thrown
as the generic `new Error('Erro ao excluir empresa')`
(crm-services.ts lines 174-177). -/
def deleteEmpresa (commitOk : Bool) (now : Nat)
    (id userId userEmail : String) (s : Store) : Except String Store :=
  match deleteEmpresaTry commitOk now id userId userEmail s with
  | .ok s1 => .ok s1
  | .error _ => .error "Erro ao excluir empresa"

/-- The store a caller observes after the call: the committed store on
success; the untouched input store on failure, because every write of
`deleteEmpresa` goes through the single atomic `commitBatch`. -/
def deleteEmpresaState (commitOk : Bool) (now : Nat)
    (id userId userEmail : String) (s : Store) : Store :=
  match deleteEmpresa commitOk now id userId userEmail s with
  | .ok s1 => s1
  | .error _ => s

/-! ## Lemmas about folding the queued batch operations -/

theorem foldl_deleteContato_ops (ids : List String) (s : Store) :
    (ids.map BatchOp.deleteContato).foldl applyOp s
      = { s with contatos := s.contatos.filter (fun c => !(ids.contains c.id)) } := by
  induction ids generalizing s with
  | nil => simp
  | cons i rest ih =>
    simp only [List.map_cons, List.foldl_cons]
    rw [show applyOp s (BatchOp.deleteContato i)
        = { s with contatos := s.contatos.filter (fun c => c.id ≠ i) } from rfl]
    rw [ih]
    congr 1
    rw [List.filter_filter]
    refine List.filter_congr (fun c _ => ?_)
    simp [List.contains_cons, Bool.not_or, decide_not, Bool.and_comm]

theorem foldl_deleteLog_ops (ids : List String) (s : Store) :
    (ids.map BatchOp.deleteLog).foldl applyOp s
      = { s with logs_informacao := s.logs_informacao.filter (fun l => !(ids.contains l.id)) } := by
  induction ids generalizing s with
  | nil => simp
  | cons i rest ih =>
    simp only [List.map_cons, List.foldl_cons]
    rw [show applyOp s (BatchOp.deleteLog i)
        = { s with logs_informacao := s.logs_informacao.filter (fun l => l.id ≠ i) } from rfl]
    rw [ih]
    congr 1
    rw [List.filter_filter]
    refine List.filter_congr (fun l _ => ?_)
    simp [List.contains_cons, Bool.not_or, decide_not, Bool.and_comm]

theorem filter_not_contains_fetched {α : Type} (f : α → String) (p : α → Bool)
    (l : List α) (hnd : (l.map f).Nodup) :
    l.filter (fun a => !(((l.filter p).map f).contains (f a)))
      = l.filter (fun a => !(p a)) := by
  refine List.filter_congr (fun a ha => ?_)
  congr 1
  by_cases hpa : p a = true
  · have hmem : f a ∈ (l.filter p).map f :=
      List.mem_map.mpr ⟨a, List.mem_filter.mpr ⟨ha, hpa⟩, rfl⟩
    have hc : ((l.filter p).map f).contains (f a) = true := by simpa using hmem
    rw [hc, hpa]
  · have hnotmem : f a ∉ (l.filter p).map f := by
      intro hmem
      obtain ⟨b, hb, hfb⟩ := List.mem_map.mp hmem
      obtain ⟨hbl, hpb⟩ := List.mem_filter.mp hb
      have hba : b = a := List.inj_on_of_nodup_map hnd hbl ha hfb
      exact hpa (hba ▸ hpb)
    have hc : ((l.filter p).map f).contains (f a) = false := by simpa using hnotmem
    rw [hc, Bool.eq_false_iff.mpr hpa]

theorem foldl_deleteContatoDocs (cs : List FirebaseContato) (s : Store) :
    (cs.map (fun c => BatchOp.deleteContato c.id)).foldl applyOp s
      = { s with contatos := (s.contatos.filter (fun c => !((cs.map FirebaseContato.id).contains c.id))) } := by
  have h := foldl_deleteContato_ops (cs.map FirebaseContato.id) s
  have hmap : (cs.map FirebaseContato.id).map BatchOp.deleteContato
      = cs.map (fun c => BatchOp.deleteContato c.id) := by
    rw [List.map_map]; rfl
  rw [hmap] at h
  exact h

theorem foldl_deleteLogDocs (ls : List FirebaseLogInformacao) (s : Store) :
    (ls.map (fun l => BatchOp.deleteLog l.id)).foldl applyOp s
      = { s with logs_informacao := (s.logs_informacao.filter (fun l => !((ls.map FirebaseLogInformacao.id).contains l.id))) } := by
  have h := foldl_deleteLog_ops (ls.map FirebaseLogInformacao.id) s
  have hmap : (ls.map FirebaseLogInformacao.id).map BatchOp.deleteLog
      = ls.map (fun l => BatchOp.deleteLog l.id) := by
    rw [List.map_map]; rfl
  rw [hmap] at h
  exact h

/-- C1: a successful `deleteEmpresa(id, userId, userEmail)` commits one
atomic batch that removes every contact and every information log whose
`empresa_id` is `id`, removes the company document, and appends exactly
one audit record whose `contatos_excluidos` is the number N of such
contacts, whose `logs_excluidos` is the number M of such logs, and whose
`detalhes` carry the company's pre-deletion `razao_social`, `endereco`,
`telefone`, `email`, `site` and `observacoes`, plus the acting user's id
and email. -/
theorem c1_deleteEmpresa_cascades_and_audits (now : Nat)
    (id userId userEmail : String) (s s1 : Store) (emp : FirebaseEmpresa)
    (hwf : s.WellFormed)
    (hemp : getDocEmpresa s id = some emp)
    (h : deleteEmpresa true now id userId userEmail s = .ok s1) :
    s1.empresas = s.empresas.filter (fun e => e.id ≠ id) ∧
    s1.contatos = s.contatos.filter (fun c => c.empresa_id ≠ id) ∧
    s1.logs_informacao = s.logs_informacao.filter (fun l => l.empresa_id ≠ id) ∧
    s1.auditoria = s.auditoria ++
      [deleteEmpresaAudit now id userId userEmail emp
        (s.contatos.filter (fun c => c.empresa_id = id)).length
        (s.logs_informacao.filter (fun l => l.empresa_id = id)).length] := by
  obtain ⟨hndc, hndl⟩ := hwf
  unfold deleteEmpresa deleteEmpresaTry at h
  rw [hemp] at h
  simp only [commitBatch, if_true] at h
  have hs1 : s1 =
      ((s.contatos.filter (fun c => c.empresa_id = id)).map
          (fun c => BatchOp.deleteContato c.id)
        ++ (s.logs_informacao.filter (fun l => l.empresa_id = id)).map
            (fun l => BatchOp.deleteLog l.id)
        ++ [BatchOp.deleteEmpresaDoc id]
        ++ [BatchOp.setAuditoria
              (deleteEmpresaAudit now id userId userEmail emp
                (s.contatos.filter (fun c => c.empresa_id = id)).length
                (s.logs_informacao.filter (fun l => l.empresa_id = id)).length)]).foldl
        applyOp s := by
    exact (Except.ok.inj h).symm
  rw [hs1]
  rw [List.foldl_append, List.foldl_append, List.foldl_append,
    foldl_deleteContatoDocs, foldl_deleteLogDocs]
  simp only [List.foldl_cons, List.foldl_nil, applyOp]
  refine ⟨trivial, ?_, ?_, trivial⟩
  · show (s.contatos.filter
        (fun c => !(((s.contatos.filter (fun c => c.empresa_id = id)).map
          FirebaseContato.id).contains c.id)))
      = s.contatos.filter (fun c => c.empresa_id ≠ id)
    rw [filter_not_contains_fetched FirebaseContato.id _ _ hndc]
    simp only [ne_eq, decide_not]
  · show (s.logs_informacao.filter
        (fun l => !(((s.logs_informacao.filter (fun l => l.empresa_id = id)).map
          FirebaseLogInformacao.id).contains l.id)))
      = s.logs_informacao.filter (fun l => l.empresa_id ≠ id)
    rw [filter_not_contains_fetched FirebaseLogInformacao.id _ _ hndl]
    simp only [ne_eq, decide_not]

/-- C2 amended claim: every failure of `deleteEmpresa` — company absent
or commit failure — leaves the store untouched and reports the one
generic message `'Erro ao excluir empresa'`; the internal not-found
error `'Empresa não encontrada'` is caught and replaced by that generic
message before it reaches the caller. -/
theorem c2_amended_failure_is_generic_error (commitOk : Bool) (now : Nat)
    (id userId userEmail : String) (s : Store)
    (hfail : getDocEmpresa s id = none ∨ commitOk = false) :
    deleteEmpresa commitOk now id userId userEmail s = .error "Erro ao excluir empresa" ∧
    deleteEmpresaState commitOk now id userId userEmail s = s := by
  have herr : deleteEmpresa commitOk now id userId userEmail s
      = .error "Erro ao excluir empresa" := by
    rcases hfail with hnone | hcommit
    · unfold deleteEmpresa deleteEmpresaTry
      rw [hnone]
    · subst hcommit
      unfold deleteEmpresa deleteEmpresaTry
      cases hemp : getDocEmpresa s id with
      | none => simp
      | some emp => simp [commitBatch]
  refine ⟨herr, ?_⟩
  unfold deleteEmpresaState
  rw [herr]

/-- A concrete database used by the witnesses: company `e1` with two
contacts and one information log, one unrelated contact of `e2`. -/
def sampleEndereco : Endereco :=
  { logradouro := "Rua A", numero := "100", complemento := none
    bairro := "Centro", cidade := "São Paulo", estado := "SP", cep := "01310-100" }

def sampleEmpresa : FirebaseEmpresa :=
  { id := "e1", cnpj := "11222333000181", razao_social := "ACME LTDA"
    nome_fantasia := "ACME", endereco := sampleEndereco
    telefone := some "(11) 3333-4444", email := some "contato@acme.com"
    site := none, observacoes := some "cliente antigo"
    created_at := 1, updated_at := 2, created_by := "u1", updated_by := "u1" }

def sampleContato (i : String) (emp : String) : FirebaseContato :=
  { id := i, empresa_id := emp, nome := "Contato " ++ i, cargo := none
    telefone := none, celular := none, email := i ++ "@mail.com"
    departamento := none, observacoes := none, is_principal := false
    created_at := 1, updated_at := 1, created_by := "u1", updated_by := "u1" }

def sampleLog (i : String) (emp : String) : FirebaseLogInformacao :=
  { id := i, empresa_id := emp, contato_id := none, titulo := "Log " ++ i
    descricao := "descricao", relevancia := "alta", categoria := "comercial"
    data_ocorrencia := 3, data_registro := 4, created_at := 4, updated_at := 4
    created_by := "u1", updated_by := "u1" }

def sampleStore : Store :=
  { empresas := [sampleEmpresa]
    contatos := [sampleContato "c1" "e1", sampleContato "c2" "e1", sampleContato "c3" "e2"]
    logs_informacao := [sampleLog "l1" "e1"]
    auditoria := [] }

/-- Witness for C1 at the concrete database `sampleStore`. -/
theorem c1_witness :
    (deleteEmpresaState true 7 "e1" "u1" "u1@mail.com" sampleStore).empresas
      = sampleStore.empresas.filter (fun e => e.id ≠ "e1") ∧
    (deleteEmpresaState true 7 "e1" "u1" "u1@mail.com" sampleStore).contatos
      = sampleStore.contatos.filter (fun c => c.empresa_id ≠ "e1") ∧
    (deleteEmpresaState true 7 "e1" "u1" "u1@mail.com" sampleStore).logs_informacao
      = sampleStore.logs_informacao.filter (fun l => l.empresa_id ≠ "e1") ∧
    (deleteEmpresaState true 7 "e1" "u1" "u1@mail.com" sampleStore).auditoria
      = sampleStore.auditoria ++
        [deleteEmpresaAudit 7 "e1" "u1" "u1@mail.com" sampleEmpresa
          (sampleStore.contatos.filter (fun c => c.empresa_id = "e1")).length
          (sampleStore.logs_informacao.filter (fun l => l.empresa_id = "e1")).length] :=
  c1_deleteEmpresa_cascades_and_audits 7 "e1" "u1" "u1@mail.com" sampleStore
    (deleteEmpresaState true 7 "e1" "u1" "u1@mail.com" sampleStore) sampleEmpresa
    (by decide) (by rfl) (by rfl)

/-- C2 counterexample: deleting an absent company does not surface the
not-found error unchanged — the caller receives the generic deletion
message `'Erro ao excluir empresa'`, not `'Empresa não encontrada'`. -/
theorem c2_counterexample_notfound_not_surfaced :
    deleteEmpresa true 0 "e1" "u1" "u1@mail.com"
        { empresas := [], contatos := [], logs_informacao := [], auditoria := [] }
      = .error "Erro ao excluir empresa" ∧
    ("Erro ao excluir empresa" : String) ≠ "Empresa não encontrada" := by
  exact ⟨rfl, by decide⟩

/-- Witness for the amended C2: a failing commit at `sampleStore`. -/
theorem c2_witness :
    deleteEmpresa false 0 "e1" "u1" "u1@mail.com" sampleStore
      = .error "Erro ao excluir empresa" ∧
    deleteEmpresaState false 0 "e1" "u1" "u1@mail.com" sampleStore = sampleStore :=
  c2_amended_failure_is_generic_error false 0 "e1" "u1" "u1@mail.com" sampleStore
    (Or.inr rfl)

/-! ## History snapshots and `ProcessHistory.formatChanges`
(`ProcessHistory` component) -/

/-- A JavaScript runtime value stored in a history snapshot.  Snapshot
values are primitives (strings, booleans, null) or a Firestore
`Timestamp`-like object carrying `seconds`/`nanoseconds`; structural
equality on these constructors coincides with JavaScript `!==` on the
primitive values that `sanitizeForHistory` stores. -/
inductive JsPrim
  | str (s : String)
  | bool (b : Bool)
  | tsObj (seconds nanoseconds : Nat)
  | null
deriving DecidableEq, Repr

/-- A snapshot object (`old_values` / `new_values`): association list of
fields in insertion order, as iterated by `for (const key in ...)`. -/
abbrev Snapshot := List (String × JsPrim)

/-- `obj[key]`: the value bound to `key`, `none` for JS `undefined`. -/
def jsGet (snap : Snapshot) (key : String) : Option JsPrim :=
  (snap.find? (fun kv => kv.1 = key)).map (fun kv => kv.2)

/-- `value.match(/^\d{4}-\d{2}-\d{2}T/)`: four digits, dash, two digits,
dash, two digits, then a literal `T` at the start of the string. -/
def isIsoDateString (s : String) : Bool :=
  match s.data with
  | a :: b :: c :: d :: s1 :: e :: f :: s2 :: g :: h :: t :: _ =>
    a.isDigit && b.isDigit && c.isDigit && d.isDigit && s1 = '-' &&
    e.isDigit && f.isDigit && s2 = '-' && g.isDigit && h.isDigit && t = 'T'
  | _ => false

/-- `formatValue` inside `formatChanges` (ProcessHistory component,
lines 47-75).  The two date renderings delegated to the `date-fns`
library are abstract parameters: `fmtEpoch` renders
`new Date(value.seconds * 1000)` (with its internal try/catch) and
`fmtIso` renders an ISO-prefixed string.  `'vazio'` is the component's
sentinel label for empty values. -/
def formatValue (fmtEpoch : Nat → String) (fmtIso : String → String) :
    Option JsPrim → String
  | some (.tsObj seconds nanoseconds) =>
    if seconds ≠ 0 && nanoseconds ≠ 0 then fmtEpoch seconds else "[object Object]"
  | some (.str s) =>
    if isIsoDateString s then fmtIso s
    else if s = "" then "vazio"
    else s
  | some (.bool b) => if b then "true" else "false"
  | some .null => "vazio"
  | none => "vazio"

/-- One `(field, from, to)` triple pushed onto the `changes` array. -/
structure Change where
  field : String
  fromVal : String
  toVal : String
deriving DecidableEq, Repr

/-- The `for (const key in newValues)` loop of `formatChanges`: a change
is pushed whenever `oldValues[key] !== newValues[key]`. -/
def formatChangesLoop (fmtEpoch : Nat → String) (fmtIso : String → String)
    (ov : Snapshot) : Snapshot → List Change
  | [] => []
  | (key, v) :: rest =>
    if jsGet ov key ≠ some v then
      { field := key
        fromVal := formatValue fmtEpoch fmtIso (jsGet ov key)
        toVal := formatValue fmtEpoch fmtIso (some v) }
        :: formatChangesLoop fmtEpoch fmtIso ov rest
    else formatChangesLoop fmtEpoch fmtIso ov rest

/-- `formatChanges(oldValues, newValues)` (ProcessHistory component,
lines 44-88): `null` when either snapshot is absent, otherwise the list
of changed fields. -/
def formatChanges (fmtEpoch : Nat → String) (fmtIso : String → String)
    (oldValues newValues : Option Snapshot) : Option (List Change) :=
  match oldValues, newValues with
  | some ov, some nv => some (formatChangesLoop fmtEpoch fmtIso ov nv)
  | _, _ => none

/-- A stored contract history entry (`ProcessHistory` in
`src/types/process.ts`); `action` is kept as the raw stored string so
that what the services actually write can be compared against the
type's declared union (see `allowedActions`). -/
structure HistoryEntry where
  id : String
  process_id : String
  action : String
  old_values : Option Snapshot
  new_values : Option Snapshot
  updated_by : String
  updated_at : Nat
  notes : Option String
deriving DecidableEq, Repr

/-- The change list the component renders for an entry: the JSX guard is
`entry.action !== 'progress_update' && changes && changes.length > 0`
(ProcessHistory component, lines 179-193). -/
def renderedChanges (fmtEpoch : Nat → String) (fmtIso : String → String)
    (entry : HistoryEntry) : List Change :=
  if entry.action ≠ "progress_update" then
    match formatChanges fmtEpoch fmtIso entry.old_values entry.new_values with
    | some cs => if cs.length > 0 then cs else []
    | none => []
  else []

theorem formatChangesLoop_eq_filter_map (fmtEpoch : Nat → String)
    (fmtIso : String → String) (ov nv : Snapshot) :
    formatChangesLoop fmtEpoch fmtIso ov nv
      = (nv.filter (fun kv => jsGet ov kv.1 ≠ some kv.2)).map
          (fun kv =>
            { field := kv.1
              fromVal := formatValue fmtEpoch fmtIso (jsGet ov kv.1)
              toVal := formatValue fmtEpoch fmtIso (some kv.2) }) := by
  induction nv with
  | nil => rfl
  | cons kv rest ih =>
    obtain ⟨key, v⟩ := kv
    by_cases hkv : jsGet ov key = some v
    · simp [formatChangesLoop, hkv, ih]
    · simp [formatChangesLoop, hkv, ih]

/-- C3: for an entry with both snapshots present, the computed change
set is exactly the fields of the new-value snapshot whose value differs
from the old snapshot's value at the same key; a field absent from the
old snapshot is rendered from the `'vazio'` (empty) label; and on the
spec's concrete instance, old `{status: "pendente"}` against new
`{status: "concluido", local: "X"}` yields exactly the `status` change
`pendente → concluido` and the `local` change `vazio → X`. -/
theorem c3_formatChanges_is_differing_fields (fmtEpoch : Nat → String)
    (fmtIso : String → String) (ov nv : Snapshot) (cs : List Change)
    (h : formatChanges fmtEpoch fmtIso (some ov) (some nv) = some cs) :
    cs = (nv.filter (fun kv => jsGet ov kv.1 ≠ some kv.2)).map
        (fun kv =>
          { field := kv.1
            fromVal := formatValue fmtEpoch fmtIso (jsGet ov kv.1)
            toVal := formatValue fmtEpoch fmtIso (some kv.2) }) ∧
    formatValue fmtEpoch fmtIso none = "vazio" ∧
    formatChanges fmtEpoch fmtIso (some [("status", JsPrim.str "pendente")])
        (some [("status", JsPrim.str "concluido"), ("local", JsPrim.str "X")])
      = some [{ field := "status", fromVal := "pendente", toVal := "concluido" },
              { field := "local", fromVal := "vazio", toVal := "X" }] := by
  refine ⟨?_, rfl, ?_⟩
  · have hcs : cs = formatChangesLoop fmtEpoch fmtIso ov nv := by
      have := h
      unfold formatChanges at this
      exact (Option.some.inj this).symm
    rw [hcs, formatChangesLoop_eq_filter_map]
  · rfl

/-- Witness for C3: the spec's concrete diff instance. -/
theorem c3_witness :
    ([{ field := "status", fromVal := "pendente", toVal := "concluido" },
      { field := "local", fromVal := "vazio", toVal := "X" }] : List Change)
      = (([("status", JsPrim.str "concluido"), ("local", JsPrim.str "X")].filter
          (fun kv => jsGet [("status", JsPrim.str "pendente")] kv.1 ≠ some kv.2)).map
          (fun kv =>
            { field := kv.1
              fromVal := formatValue (fun _ => "dt") (fun s => s)
                (jsGet [("status", JsPrim.str "pendente")] kv.1)
              toVal := formatValue (fun _ => "dt") (fun s => s) (some kv.2) })) ∧
    formatValue (fun _ => "dt") (fun s => s) none = "vazio" ∧
    formatChanges (fun _ => "dt") (fun s => s)
        (some [("status", JsPrim.str "pendente")])
        (some [("status", JsPrim.str "concluido"), ("local", JsPrim.str "X")])
      = some [{ field := "status", fromVal := "pendente", toVal := "concluido" },
              { field := "local", fromVal := "vazio", toVal := "X" }] :=
  c3_formatChanges_is_differing_fields (fun _ => "dt") (fun s => s)
    [("status", JsPrim.str "pendente")]
    [("status", JsPrim.str "concluido"), ("local", JsPrim.str "X")]
    [{ field := "status", fromVal := "pendente", toVal := "concluido" },
     { field := "local", fromVal := "vazio", toVal := "X" }]
    (by rfl)

/-- C8: for an entry whose action is not `progress_update`, if either
snapshot is absent then `formatChanges` returns `null` and the component
renders no change triples at all — even when a complete new-value
snapshot is present on its own. -/
theorem c8_missing_snapshot_renders_nothing (fmtEpoch : Nat → String)
    (fmtIso : String → String) (entry : HistoryEntry)
    (hact : entry.action ≠ "progress_update")
    (habs : entry.old_values = none ∨ entry.new_values = none) :
    formatChanges fmtEpoch fmtIso entry.old_values entry.new_values = none ∧
    renderedChanges fmtEpoch fmtIso entry = [] := by
  have hfc : formatChanges fmtEpoch fmtIso entry.old_values entry.new_values = none := by
    rcases habs with hold | hnew
    · rw [hold]; unfold formatChanges; rfl
    · rw [hnew]; unfold formatChanges
      cases entry.old_values <;> rfl
  refine ⟨hfc, ?_⟩
  unfold renderedChanges
  rw [if_pos hact, hfc]

/-- Witness for C8: an `updated` entry carrying only new values. -/
theorem c8_witness :
    formatChanges (fun _ => "dt") (fun s => s) none
        (some [("status", JsPrim.str "concluido"), ("local", JsPrim.str "X")]) = none ∧
    renderedChanges (fun _ => "dt") (fun s => s)
        { id := "h1", process_id := "p1", action := "updated"
          old_values := none
          new_values := some [("status", JsPrim.str "concluido"), ("local", JsPrim.str "X")]
          updated_by := "u1", updated_at := 5, notes := none } = [] :=
  c8_missing_snapshot_renders_nothing (fun _ => "dt") (fun s => s)
    { id := "h1", process_id := "p1", action := "updated"
      old_values := none
      new_values := some [("status", JsPrim.str "concluido"), ("local", JsPrim.str "X")]
      updated_by := "u1", updated_at := 5, notes := none }
    (by decide) (Or.inl rfl)

/-! ## Process services: `removeUndefined`, `addToHistory`,
`deleteProcess` (`src/lib/firebase-services.ts`) -/

/-- A JavaScript value inside a history record before storage: here
`undefined` is representable (`sanitizeForHistory` keeps `undefined`
bindings, which `removeUndefined` must strip).  `jts` is a Firestore
`Timestamp` — the only stored value owning a `toDate` method.  The
history records built by the services contain no array values. -/
inductive JVal
  | undef
  | jnull
  | jstr (s : String)
  | jbool (b : Bool)
  | jnum (n : Int)
  | jts (seconds nanoseconds : Nat)
  | jobj (fields : List (String × JVal))

/-- `firebaseUtils.removeUndefined` applied to the fields of an object
(firebase-services.ts lines 529-552): skip keys bound to `undefined`;
recurse into values that are non-null objects without a `toDate` method
(so `jts` values are kept as they are); keep everything else. -/
def removeUndefinedFields : List (String × JVal) → List (String × JVal)
  | [] => []
  | (_, .undef) :: rest => removeUndefinedFields rest
  | (key, .jobj fs) :: rest =>
    (key, .jobj (removeUndefinedFields fs)) :: removeUndefinedFields rest
  | (key, v) :: rest => (key, v) :: removeUndefinedFields rest

/-- Top level of `firebaseUtils.removeUndefined`: non-object (or null)
arguments are returned unchanged by the guard on its first line. -/
def removeUndefined : JVal → JVal
  | .jobj fields => .jobj (removeUndefinedFields fields)
  | v => v

/-- Whether some key of the object fields is bound to `undefined`, at
any depth reachable through plain object values. -/
def fieldsHaveUndef : List (String × JVal) → Bool
  | [] => false
  | (_, .undef) :: _ => true
  | (_, .jobj fs) :: rest => fieldsHaveUndef fs || fieldsHaveUndef rest
  | (_, _) :: rest => fieldsHaveUndef rest

/-- `obj[key]` on a stored history record. -/
def jvalGet (fields : List (String × JVal)) (key : String) : Option JVal :=
  (fields.find? (fun kv => kv.1 = key)).map (fun kv => kv.2)

/-- The declared union of `ProcessHistory.action`
(`src/types/process.ts` line 19). -/
def allowedActions : List String :=
  ["created", "updated", "status_changed", "progress_update"]

/-- Contract status union (`src/types/process.ts`). -/
inductive ProcessStatus
  | pendente
  | em_andamento
  | concluido
  | cancelado
deriving DecidableEq, Repr

/-- A stored contract document (`Process` / `FirebaseProcess`); the
`local` field is spelled `local_` because `local` is reserved in Lean. -/
structure FirebaseProcess where
  id : String
  titulo : String
  descricao : Option String
  data : String
  local_ : String
  status : ProcessStatus
  prioridade : String
  responsavel : Option String
  numero_processo : Option String
  created_by : String
  updated_by : String
  created_at : Nat
  updated_at : Nat
deriving DecidableEq, Repr

/-- The two collections touched by `processService`. -/
structure ProcessStore where
  processes : List FirebaseProcess
  process_history : List (List (String × JVal))

/-- `processService.addToHistory` (firebase-services.ts lines 305-309):
strip `undefined` values, then `addDoc` into the history collection. -/
def addToHistory (historyData : List (String × JVal)) (s : ProcessStore) : ProcessStore :=
  { s with process_history := s.process_history ++ [removeUndefinedFields historyData] }

/-- `processService.deleteProcess` (firebase-services.ts lines 224-237):
delete the contract document, then append a history record whose
`action` is the string literal `'deleted'`. -/
def deleteProcess (now : Nat) (id : String) (s : ProcessStore) : ProcessStore :=
  addToHistory
    [("process_id", JVal.jstr id),
     ("action", JVal.jstr "deleted"),
     ("old_values", JVal.jobj []),
     ("new_values", JVal.jobj []),
     ("updated_by", JVal.jstr "system"),
     ("updated_at", JVal.jts now 0)]
    { s with processes := s.processes.filter (fun p => p.id ≠ id) }

theorem removeUndefinedFields_no_undef (fs : List (String × JVal)) :
    fieldsHaveUndef (removeUndefinedFields fs) = false := by
  induction fs using removeUndefinedFields.induct with
  | case1 => simp [removeUndefinedFields, fieldsHaveUndef]
  | case2 key rest ih => simpa [removeUndefinedFields] using ih
  | case3 key fs2 rest ih2 ih =>
    simp [removeUndefinedFields, fieldsHaveUndef, ih2, ih]
  | case4 key v rest hundef hobj ih =>
    cases v with
    | undef => exact absurd rfl hundef
    | jobj fs2 => exact absurd rfl (hobj fs2)
    | jnull => simp [removeUndefinedFields, fieldsHaveUndef, ih]
    | jstr s => simp [removeUndefinedFields, fieldsHaveUndef, ih]
    | jbool b => simp [removeUndefinedFields, fieldsHaveUndef, ih]
    | jnum n => simp [removeUndefinedFields, fieldsHaveUndef, ih]
    | jts a b => simp [removeUndefinedFields, fieldsHaveUndef, ih]

/-- C4 is violated by the code: `processService.deleteProcess` appends a
history record whose `action` is the string `'deleted'`, which is not in
the union `{created, updated, status_changed, progress_update}` declared
for `ProcessHistory.action` in `src/types/process.ts`. -/
theorem c4_deleteProcess_writes_disallowed_action (now : Nat) (id : String)
    (s : ProcessStore) :
    (deleteProcess now id s).process_history
      = s.process_history ++
        [[("process_id", JVal.jstr id), ("action", JVal.jstr "deleted"),
          ("old_values", JVal.jobj []), ("new_values", JVal.jobj []),
          ("updated_by", JVal.jstr "system"), ("updated_at", JVal.jts now 0)]] ∧
    jvalGet [("process_id", JVal.jstr id), ("action", JVal.jstr "deleted"),
          ("old_values", JVal.jobj []), ("new_values", JVal.jobj []),
          ("updated_by", JVal.jstr "system"), ("updated_at", JVal.jts now 0)] "action"
      = some (JVal.jstr "deleted") ∧
    "deleted" ∉ allowedActions := by
  refine ⟨?_, ?_, by decide⟩
  · simp [deleteProcess, addToHistory, removeUndefinedFields]
  · simp [jvalGet, List.find?]

/-- C10: `removeUndefined` leaves no key bound to `undefined` at any
nesting depth, and `addToHistory` stores exactly the stripped record, so
every stored history record is free of `undefined`-valued fields. -/
theorem c10_addToHistory_stores_no_undefined
    (historyData : List (String × JVal)) (s : ProcessStore) :
    fieldsHaveUndef (removeUndefinedFields historyData) = false ∧
    removeUndefined (JVal.jobj historyData)
      = JVal.jobj (removeUndefinedFields historyData) ∧
    (addToHistory historyData s).process_history
      = s.process_history ++ [removeUndefinedFields historyData] :=
  ⟨removeUndefinedFields_no_undef historyData, rfl, rfl⟩

/-! ## `DeleteEmpresaModal.handleConfirm`
(`src/components/crm/DeleteEmpresaModal.tsx` lines 61-108) -/

/-- Outcome of `signInWithEmailAndPassword(auth, user.email, password)`,
the re-authentication performed immediately before the deletion; the
error cases carry the vendor error codes the component inspects. -/
inductive ReauthOutcome
  | success
  | wrongPassword
  | tooManyRequests
  | otherError
deriving DecidableEq, Repr

/-- What one run of `handleConfirm` did: whether `onConfirm(password)`
— the deletion operation — was invoked, and the `validationError`
message left in the modal state. -/
structure ConfirmResult where
  deletionInvoked : Bool
  validationError : Option String
deriving DecidableEq, Repr

/-- `password.trim()`: strip leading and trailing whitespace. -/
def jsTrim (s : String) : String :=
  String.mk (((s.data.dropWhile Char.isWhitespace).reverse.dropWhile
    Char.isWhitespace).reverse)

/-- `handleConfirm` of `DeleteEmpresaModal`: require a non-blank
password; bail out silently with no company; throw (caught as the
generic validation message) with no signed-in user; re-authenticate via
`signInWithEmailAndPassword`; only on success call `onConfirm`; map
`auth/wrong-password` and `auth/too-many-requests` to their dedicated
messages and anything else to the generic validation message. -/
def handleConfirm (password : String) (hasEmpresa : Bool)
    (currentUserEmail : Option String) (reauth : ReauthOutcome) : ConfirmResult :=
  if jsTrim password = "" then
    { deletionInvoked := false, validationError := some "Senha é obrigatória" }
  else if !hasEmpresa then
    { deletionInvoked := false, validationError := none }
  else
    match currentUserEmail with
    | none =>
      { deletionInvoked := false
        validationError := some "Erro ao validar senha. Tente novamente." }
    | some _ =>
      match reauth with
      | .success => { deletionInvoked := true, validationError := none }
      | .wrongPassword =>
        { deletionInvoked := false, validationError := some "Senha incorreta" }
      | .tooManyRequests =>
        { deletionInvoked := false
          validationError := some "Muitas tentativas. Tente novamente mais tarde." }
      | .otherError =>
        { deletionInvoked := false
          validationError := some "Erro ao validar senha. Tente novamente." }

/-- C5: the modal invokes the deletion operation only when the
re-authentication with the just-supplied password succeeded immediately
beforehand; a failed re-authentication (wrong password, rate-limited)
attempts no deletion and reports a dedicated password-validation
message, which is distinct from the deletion-failure message
`'Erro ao excluir empresa'`. -/
theorem c5_reauth_gates_deletion (password : String) (hasEmpresa : Bool)
    (currentUserEmail : Option String) (reauth : ReauthOutcome)
    (hpass : jsTrim password ≠ "") (hemp : hasEmpresa = true)
    (he : currentUserEmail.isSome = true) :
    ((handleConfirm password hasEmpresa currentUserEmail reauth).deletionInvoked = true
      ↔ reauth = .success) ∧
    (reauth = .wrongPassword →
      handleConfirm password hasEmpresa currentUserEmail reauth
        = { deletionInvoked := false, validationError := some "Senha incorreta" }) ∧
    (reauth = .tooManyRequests →
      handleConfirm password hasEmpresa currentUserEmail reauth
        = { deletionInvoked := false
            validationError := some "Muitas tentativas. Tente novamente mais tarde." }) ∧
    ((handleConfirm password hasEmpresa currentUserEmail reauth).validationError
      ≠ some "Erro ao excluir empresa") := by
  obtain ⟨email⟩ := Option.isSome_iff_exists.mp he
  subst hemp
  cases reauth <;>
    simp_all [handleConfirm]

/-- Witness for C5: wrong password at a concrete call. -/
theorem c5_witness :
    ((handleConfirm "secret" true (some "u1@mail.com") ReauthOutcome.wrongPassword).deletionInvoked
        = true ↔ ReauthOutcome.wrongPassword = ReauthOutcome.success) ∧
    (ReauthOutcome.wrongPassword = ReauthOutcome.wrongPassword →
      handleConfirm "secret" true (some "u1@mail.com") ReauthOutcome.wrongPassword
        = { deletionInvoked := false, validationError := some "Senha incorreta" }) ∧
    (ReauthOutcome.wrongPassword = ReauthOutcome.tooManyRequests →
      handleConfirm "secret" true (some "u1@mail.com") ReauthOutcome.wrongPassword
        = { deletionInvoked := false
            validationError := some "Muitas tentativas. Tente novamente mais tarde." }) ∧
    ((handleConfirm "secret" true (some "u1@mail.com") ReauthOutcome.wrongPassword).validationError
      ≠ some "Erro ao excluir empresa") :=
  c5_reauth_gates_deletion "secret" true (some "u1@mail.com") ReauthOutcome.wrongPassword
    (by decide) rfl rfl

/-! ## `EmpresaForm.validateCNPJ` -/

/-- The first fixed weight vector of the CNPJ checksum. -/
def cnpjWeights1 : List Nat := [5, 4, 3, 2, 9, 8, 7, 6, 5, 4, 3, 2]

/-- The second fixed weight vector of the CNPJ checksum. -/
def cnpjWeights2 : List Nat := [6, 5, 4, 3, 2, 9, 8, 7, 6, 5, 4, 3, 2]

/-- `cnpj.replace(/[^\d]/g, '')` followed by `parseInt` on each digit
character. -/
def cleanDigits (cnpj : String) : List Nat :=
  (cnpj.data.filter Char.isDigit).map (fun c => c.toNat - 48)

/-- `EmpresaForm.validateCNPJ` (EmpresaForm component lines 433-454):
exactly 14 digits after stripping non-digits; the two `for` loops
accumulate the weighted sums of the first 12 and first 13 digits; each
check digit is `0` when the sum mod 11 is below 2 and `11 - sum % 11`
otherwise; both must match the stored 13th and 14th digits. -/
def validateCNPJ (cnpj : String) : Bool :=
  let cleanCNPJ := cleanDigits cnpj
  if cleanCNPJ.length ≠ 14 then false
  else
    let sum1 : Nat := ((cleanCNPJ.take 12).zip cnpjWeights1).foldl
      (fun acc p => acc + p.1 * p.2) 0
    let digit1 : Nat := if sum1 % 11 < 2 then 0 else 11 - sum1 % 11
    let sum2 : Nat := ((cleanCNPJ.take 13).zip cnpjWeights2).foldl
      (fun acc p => acc + p.1 * p.2) 0
    let digit2 : Nat := if sum2 % 11 < 2 then 0 else 11 - sum2 % 11
    decide (digit1 = cleanCNPJ.getD 12 0) && decide (digit2 = cleanCNPJ.getD 13 0)

/-- The claim's check-digit rule: below 2 gives 0, otherwise 11 minus
the remainder. -/
def mod11CheckDigit (sum : Nat) : Nat :=
  if sum % 11 < 2 then 0 else 11 - sum % 11

/-- The claim's characterization of a valid CNPJ string: 14 digits after
stripping, the 13th digit is the check digit of digits 1-12 under the
first weight vector, the 14th that of digits 1-13 under the second. -/
def cnpjChecksumSpec (cnpj : String) : Prop :=
  let ds := cleanDigits cnpj
  ds.length = 14 ∧
  ds.getD 12 0 = mod11CheckDigit
    (((ds.take 12).zip [5, 4, 3, 2, 9, 8, 7, 6, 5, 4, 3, 2]).map
      (fun p => p.1 * p.2)).sum ∧
  ds.getD 13 0 = mod11CheckDigit
    (((ds.take 13).zip [6, 5, 4, 3, 2, 9, 8, 7, 6, 5, 4, 3, 2]).map
      (fun p => p.1 * p.2)).sum

theorem foldl_mul_sum (l : List (Nat × Nat)) (acc : Nat) :
    l.foldl (fun a p => a + p.1 * p.2) acc = acc + (l.map (fun p => p.1 * p.2)).sum := by
  induction l generalizing acc with
  | nil => simp
  | cons p rest ih => simp [ih, Nat.add_assoc]

/-- C6: `validateCNPJ` accepts a string exactly when it has 14 digits
after stripping non-digits and both modulo-11 check digits match the
weighted sums prescribed by the two fixed weight vectors. -/
theorem c6_validateCNPJ_iff_checksums (cnpj : String) :
    validateCNPJ cnpj = true ↔ cnpjChecksumSpec cnpj := by
  unfold validateCNPJ cnpjChecksumSpec
  by_cases hlen : (cleanDigits cnpj).length = 14
  · simp only [hlen, ne_eq, not_true_eq_false, if_false, Bool.and_eq_true,
      decide_eq_true_eq, foldl_mul_sum, Nat.zero_add, mod11CheckDigit,
      cnpjWeights1, cnpjWeights2]
    constructor
    · rintro ⟨h1, h2⟩
      exact ⟨trivial, h1.symm, h2.symm⟩
    · rintro ⟨-, h1, h2⟩
      exact ⟨h1.symm, h2.symm⟩
  · simp [hlen]

/-- Sanity fixture: a CNPJ with correct check digits is accepted. -/
theorem validateCNPJ_accepts_fixture :
    validateCNPJ "11.222.333/0001-81" = true := by decide

/-- Sanity fixture: the same digits with the last digit changed are
rejected. -/
theorem validateCNPJ_rejects_fixture :
    validateCNPJ "11.222.333/0001-82" = false := by decide

/-! ## Excel export: `ExcelExportService.createWorksheetForProcess`
(firebase-services.ts lines 659-775) -/

/-- The value `new Date(year, month, day)` built by
`createDateFromString`; `month` is the 0-indexed constructor argument.
`Date.getTime` is strictly monotone in `(year, month, day)` for the
calendar dates the forms produce, which `dateKey` below captures. -/
structure JsDate where
  year : Int
  month : Int
  day : Int
deriving DecidableEq, Repr

/-- `createDateFromString` (`src/lib/utils.ts` lines 31-36): empty
string gives the current date (`now`); otherwise split on `-` and feed
`Number` of the three parts to the Date constructor, month made
0-indexed.  A non-numeric part (JS `NaN`) is modeled as 0; the exported
contracts carry well-formed `YYYY-MM-DD` strings. -/
def createDateFromString (now : JsDate) (dateString : String) : JsDate :=
  if dateString = "" then now
  else
    let parts := dateString.splitOn "-"
    { year := (parts.getD 0 "").toInt?.getD 0
      month := ((parts.getD 1 "").toInt?.getD 0) - 1
      day := (parts.getD 2 "").toInt?.getD 0 }

/-- Sort key standing for `Date.getTime`: lexicographic in year, month,
day (months are below 100 and days below 100 after Date
normalization). -/
def dateKey (d : JsDate) : Int :=
  d.year * 10000 + (d.month + 1) * 100 + d.day

/-- Two-digit zero padding of pt-BR date components. -/
def pad2 (n : Int) : String :=
  if 0 ≤ n ∧ n < 10 then "0" ++ toString n else toString n

/-- `date.toLocaleDateString('pt-BR')`: `dd/mm/yyyy`. -/
def toLocaleDateStringPtBR (d : JsDate) : String :=
  pad2 d.day ++ "/" ++ pad2 (d.month + 1) ++ "/" ++ toString d.year

/-- The `statusMap` literal of `createWorksheetForProcess`. -/
def statusMap : ProcessStatus → String
  | .pendente => "Pendente"
  | .em_andamento => "Em Andamento"
  | .concluido => "Concluído"
  | .cancelado => "Cancelado"

/-- JavaScript truthiness of a snapshot field value (absent and empty
string are falsy). -/
def jsTruthy : Option JsPrim → Bool
  | some (.str s) => s ≠ ""
  | some (.bool b) => b
  | some (.tsObj _ _) => true
  | some .null => false
  | none => false

/-- A snapshot value used where a string is expected. -/
def jsToString : JsPrim → String
  | .str s => s
  | .bool b => if b then "true" else "false"
  | .tsObj _ _ => "[object Object]"
  | .null => "null"

/-- `entry.new_values?.key`: optional chain then property access. -/
def nvGet (entry : HistoryEntry) (key : String) : Option JsPrim :=
  match entry.new_values with
  | some nv => jsGet nv key
  | none => none

/-- `x || fallback` on the optional `notes` string. -/
def jsOrStr (o : Option String) (fallback : String) : String :=
  match o with
  | some s => if s = "" then fallback else s
  | none => fallback

/-- One row of the exported sheet before formatting (the objects pushed
onto `rows`); the `local` column is spelled `local_`. -/
structure SheetRow where
  data : JsDate
  local_ : String
  status : String
deriving DecidableEq, Repr

/-- The row pushed for a complete `progress_update` entry
(firebase-services.ts lines 686-702): date and location from the
new-value snapshot; status is the entry's note when non-empty, else
`'Andamento registrado'`, or — when the entry filed a process number —
the note when non-empty, else `'Montou processo: <number>'`. -/
def progressRow (now : JsDate) (entry : HistoryEntry) : SheetRow :=
  let status :=
    if jsTruthy (nvGet entry "montou_processo") && jsTruthy (nvGet entry "numero_processo") then
      jsOrStr entry.notes
        ("Montou processo: " ++ jsToString ((nvGet entry "numero_processo").getD JsPrim.null))
    else
      jsOrStr entry.notes "Andamento registrado"
  { data := createDateFromString now (jsToString ((nvGet entry "data").getD JsPrim.null))
    local_ := jsToString ((nvGet entry "local").getD JsPrim.null)
    status := status }

/-- The guard inside the `forEach`: the entry contributes a row only
when `entry.new_values?.data && entry.new_values?.local` is truthy. -/
def completeProgress (e : HistoryEntry) : Bool :=
  jsTruthy (nvGet e "data") && jsTruthy (nvGet e "local")

/-- The initial row pushed from the contract itself
(firebase-services.ts lines 677-681). -/
def initialRow (now : JsDate) (process : FirebaseProcess) : SheetRow :=
  { data := createDateFromString now process.data
    local_ := process.local_
    status := statusMap process.status }

/-- The history rows: filter to `progress_update` entries, keep the
complete ones, map each to its row. -/
def progressRows (now : JsDate) (history : List HistoryEntry) : List SheetRow :=
  ((history.filter (fun e => e.action = "progress_update")).filter
    completeProgress).map (progressRow now)

/-- The `rows` array after `rows.sort((a, b) => a.data.getTime() -
b.data.getTime())`: initial row plus history rows, stably sorted
ascending by date. -/
def sheetRows (now : JsDate) (process : FirebaseProcess)
    (history : List HistoryEntry) : List SheetRow :=
  (initialRow now process :: progressRows now history).mergeSort
    (fun a b => dateKey a.data ≤ dateKey b.data)

/-- The worksheet cell grid of `createWorksheetForProcess`: the header
row, then each row formatted as `[localized date, local, status]`; the
`if (formattedRows.length === 0)` fallback re-pushes the contract row
(dead in practice, since the initial row is always present). -/
def createWorksheetForProcess (now : JsDate) (process : FirebaseProcess)
    (history : List HistoryEntry) : List (List String) :=
  let headers := ["Data", "Local", "Status"]
  let formattedRows := (sheetRows now process history).map
    (fun r => [toLocaleDateStringPtBR r.data, r.local_, r.status])
  let formattedRows :=
    if formattedRows.isEmpty then
      [[toLocaleDateStringPtBR (createDateFromString now process.data),
        process.local_, statusMap process.status]]
    else formattedRows
  headers :: formattedRows

theorem sheetRows_perm (now : JsDate) (process : FirebaseProcess)
    (history : List HistoryEntry) :
    (sheetRows now process history).Perm
      (initialRow now process :: progressRows now history) :=
  List.mergeSort_perm _ _

theorem sheetRows_length (now : JsDate) (process : FirebaseProcess)
    (history : List HistoryEntry) :
    (sheetRows now process history).length = 1 + (progressRows now history).length := by
  rw [(sheetRows_perm now process history).length_eq]
  simp [Nat.add_comm]

theorem sheetRows_ne_nil (now : JsDate) (process : FirebaseProcess)
    (history : List HistoryEntry) : sheetRows now process history ≠ [] := by
  intro hnil
  have hlen := sheetRows_length now process history
  rw [hnil] at hlen
  simp only [List.length_nil] at hlen
  omega

theorem createWorksheetForProcess_eq (now : JsDate) (process : FirebaseProcess)
    (history : List HistoryEntry) :
    createWorksheetForProcess now process history
      = ["Data", "Local", "Status"] ::
        (sheetRows now process history).map
          (fun r => [toLocaleDateStringPtBR r.data, r.local_, r.status]) := by
  obtain ⟨r, rs, hr⟩ :=
    List.exists_cons_of_ne_nil (sheetRows_ne_nil now process history)
  unfold createWorksheetForProcess
  rw [hr]
  simp

theorem createWorksheetForProcess_length (now : JsDate) (process : FirebaseProcess)
    (history : List HistoryEntry) :
    (createWorksheetForProcess now process history).length
      = 1 + (sheetRows now process history).length := by
  rw [createWorksheetForProcess_eq]
  simp [Nat.add_comm]

theorem sheetRows_sorted (now : JsDate) (process : FirebaseProcess)
    (history : List HistoryEntry) :
    (sheetRows now process history).Pairwise
      (fun a b => dateKey a.data ≤ dateKey b.data) := by
  have h := @List.sorted_mergeSort SheetRow
    (fun a b => decide (dateKey a.data ≤ dateKey b.data))
    (fun a b c hab hbc => by
      simp only [decide_eq_true_eq] at hab hbc ⊢
      exact le_trans hab hbc)
    (fun a b => by
      simp only [Bool.or_eq_true, decide_eq_true_eq]
      exact le_total _ _)
    (initialRow now process :: progressRows now history)
  exact h.imp (fun hab => by simpa using hab)

/-- C9: a `progress_update` entry contributes a data row only when its
new-value snapshot holds truthy `data` and `local` fields; the sheet row
count is one (the initial contract row) plus the number of such complete
entries, which can be below the number of `progress_update` entries. -/
theorem c9_progress_rows_require_data_and_local (now : JsDate)
    (process : FirebaseProcess) (history : List HistoryEntry) :
    (sheetRows now process history).length
      = 1 + ((history.filter (fun e => e.action = "progress_update")).filter
          completeProgress).length ∧
    ((history.filter (fun e => e.action = "progress_update")).filter
        completeProgress).length
      ≤ (history.filter (fun e => e.action = "progress_update")).length ∧
    (createWorksheetForProcess now process history).length
      = 1 + (sheetRows now process history).length := by
  refine ⟨?_, List.length_filter_le _ _,
    createWorksheetForProcess_length now process history⟩
  rw [sheetRows_length]
  simp [progressRows]

/-- C7 amended claim, proved: the worksheet is the header row followed
by the formatted sheet rows; the sheet rows number one (initial) plus
the number of *complete* `progress_update` entries (entries lacking a
truthy `data` or `local` are omitted, so possibly fewer than K); they
are sorted ascending by date; they are a permutation of the initial row
plus the rows of the complete entries; and a complete entry with a
non-empty note gets that note as its status column. -/
theorem c7_amended_export_rows (now : JsDate) (process : FirebaseProcess)
    (history : List HistoryEntry) :
    createWorksheetForProcess now process history
      = ["Data", "Local", "Status"] ::
        (sheetRows now process history).map
          (fun r => [toLocaleDateStringPtBR r.data, r.local_, r.status]) ∧
    (sheetRows now process history).length
      = 1 + ((history.filter (fun e => e.action = "progress_update")).filter
          completeProgress).length ∧
    (sheetRows now process history).Pairwise
      (fun a b => dateKey a.data ≤ dateKey b.data) ∧
    (sheetRows now process history).Perm
      (initialRow now process :: progressRows now history) ∧
    (∀ e ∈ history, completeProgress e = true → ∀ n, e.notes = some n → n ≠ "" →
      (progressRow now e).status = n) := by
  refine ⟨createWorksheetForProcess_eq now process history, ?_,
    sheetRows_sorted now process history, sheetRows_perm now process history, ?_⟩
  · rw [sheetRows_length]
    simp [progressRows]
  · intro e _ _ n hn hne
    unfold progressRow
    by_cases hm : (jsTruthy (nvGet e "montou_processo")
        && jsTruthy (nvGet e "numero_processo")) = true
    · simp [hm, jsOrStr, hn, hne]
    · simp [hm, jsOrStr, hn, hne]

/-- The date used as "now" by the witnesses (never reached: all sample
date strings are non-empty). -/
def now0 : JsDate := { year := 2025, month := 0, day := 1 }

/-- A concrete contract used by the export witnesses. -/
def sampleProcess : FirebaseProcess :=
  { id := "p1", titulo := "Contrato 1", descricao := none, data := "2024-01-10"
    local_ := "Setor X", status := .pendente, prioridade := "media"
    responsavel := none, numero_processo := none
    created_by := "u1", updated_by := "u1", created_at := 1, updated_at := 2 }

/-- A concrete `progress_update` history entry. -/
def progressEntry (i : String) (nv : Option Snapshot) (notes : Option String) :
    HistoryEntry :=
  { id := i, process_id := "p1", action := "progress_update"
    old_values := some [], new_values := nv
    updated_by := "u1", updated_at := 5, notes := notes }

/-- Three `progress_update` entries; `h2` has no `local` field. -/
def sampleExportHistory : List HistoryEntry :=
  [progressEntry "h1" (some [("data", JsPrim.str "2024-02-01"),
      ("local", JsPrim.str "Setor A")]) (some "Nota 1"),
   progressEntry "h2" (some [("data", JsPrim.str "2024-03-01")]) none,
   progressEntry "h3" (some [("data", JsPrim.str "2024-04-01"),
      ("local", JsPrim.str "Setor C")]) none]

/-- C7 counterexample: a contract whose history has K = 3
`progress_update` entries exports a worksheet of 4 rows (header +
initial + 2 history rows), not the 1 + 1 + 3 = 5 the claim requires,
because the entry without a `local` field is dropped. -/
theorem c7_counterexample_incomplete_entry_dropped :
    (sampleExportHistory.filter (fun e => e.action = "progress_update")).length = 3 ∧
    (createWorksheetForProcess now0 sampleProcess sampleExportHistory).length = 4 ∧
    (4 : Nat) ≠ 1 + 1 + 3 := by
  refine ⟨by decide, ?_, by decide⟩
  rw [createWorksheetForProcess_length, sheetRows_length]
  decide

/-- Witness for the amended C7 at the concrete contract and history. -/
theorem c7_witness :
    createWorksheetForProcess now0 sampleProcess sampleExportHistory
      = ["Data", "Local", "Status"] ::
        (sheetRows now0 sampleProcess sampleExportHistory).map
          (fun r => [toLocaleDateStringPtBR r.data, r.local_, r.status]) ∧
    (sheetRows now0 sampleProcess sampleExportHistory).length
      = 1 + ((sampleExportHistory.filter (fun e => e.action = "progress_update")).filter
          completeProgress).length ∧
    (sheetRows now0 sampleProcess sampleExportHistory).Pairwise
      (fun a b => dateKey a.data ≤ dateKey b.data) ∧
    (sheetRows now0 sampleProcess sampleExportHistory).Perm
      (initialRow now0 sampleProcess :: progressRows now0 sampleExportHistory) ∧
    (∀ e ∈ sampleExportHistory, completeProgress e = true →
      ∀ n, e.notes = some n → n ≠ "" → (progressRow now0 e).status = n) :=
  c7_amended_export_rows now0 sampleProcess sampleExportHistory
